import Mathlib

/-!
Verification of the FGSM adversarial-example notebook (`adversarial.ipynb`).

The notebook contains two pieces of code relevant to the claims:

* `fgsm_attack(image, epsilon, data_grad)` — left as an exercise in the
  shipped source: its body is `perturbed_image = image  # replace me!`,
  so as written it returns its first argument unchanged.  The intended
  body, documented in the spec, is
  `perturbed = image + epsilon * sign(data_grad)` clamped to `[0, 1]`.
* `test(model, device, test_loader, epsilon)` — an evaluation loop over
  `(sample, label)` pairs that skips initially-misclassified pairs,
  perturbs the rest through `fgsm_attack`, counts how many perturbed
  samples still classify correctly, and collects up to five illustrative
  `(initial prediction, final prediction, perturbed sample)` triples.

Tensors are embedded as `List ℚ` (a flattened single-channel image);
the model forward pass, and the autodiff gradients produced by
`loss.backward()`, are opaque functions supplied as parameters, since the
network weights live in an external checkpoint file.
-/

namespace Adversarial

/-- A flattened image tensor: one rational per pixel. -/
abbrev Img : Type := List ℚ

/-- Element-wise sign as computed by `torch.sign`: `+1` on positives,
`-1` on negatives, `0` at zero. -/
def sign (v : ℚ) : ℚ := if 0 < v then 1 else if v < 0 then -1 else 0

/-- Clamp a scalar to the valid pixel range `[0, 1]`, as
`torch.clamp(x, 0, 1)` does: first raise to at least `0`, then cap at `1`. -/
def clamp01 (x : ℚ) : ℚ := min (max x 0) 1

/-- `fgsm_attack` exactly as it stands in `adversarial.ipynb`: the body is
the placeholder `perturbed_image = image  # replace me!`, so the function
returns the input image unchanged. -/
def fgsm_attack (image : Img) (epsilon : ℚ) (data_grad : Img) : Img :=
  image

/-- Modelled from the spec: the intended body of `fgsm_attack`, which the
notebook leaves as a TODO exercise.  Per §4.1 of the spec it computes
`perturbed = image + epsilon * elementwise_sign(data_grad)` and clamps the
result element-wise to `[0, 1]`. -/
def fgsm_attack_spec (image : Img) (epsilon : ℚ) (data_grad : Img) : Img :=
  List.zipWith (fun x g => clamp01 (x + epsilon * sign g)) image data_grad

/-- Index of the (first) maximal score, as `output.max(1, keepdim=True)[1]`
produces the arg-max class of the log-probability vector. -/
def argmaxAux : List ℚ → Nat → Nat → ℚ → Nat
  | [], _, besti, _ => besti
  | v :: rest, i, besti, bestv =>
      if bestv < v then argmaxAux rest (i + 1) i v
      else argmaxAux rest (i + 1) besti bestv

/-- Arg-max over a score vector; `0` on the empty vector (the model always
returns ten scores, so that case never arises). -/
def argmaxIdx : List ℚ → Nat
  | [] => 0
  | v :: rest => argmaxAux rest 1 0 v

/-- The mutable state of the frozen classifier: its parameters (opaque, of
type `P`) and the accumulated parameter-gradient buffer that
`model.zero_grad()` clears and `loss.backward()` fills. -/
structure ModelState (P : Type) where
  params : P
  grads : Option P

/-- A forward pass `model(data)` reads the current parameters only. -/
def forward {P : Type} (f : P → Img → List ℚ) (ms : ModelState P) (x : Img) :
    List ℚ :=
  f ms.params x

/-- `model.zero_grad()`: clears the accumulated parameter gradients and
touches nothing else. -/
def zero_grad {P : Type} (ms : ModelState P) : ModelState P :=
  { ms with grads := none }

/-- `loss.backward()` for the per-sample `nll_loss`: per the autodiff
library's contract it writes the parameter-gradient buffer (computed by the
opaque `gP`) and never modifies the parameters themselves.  Because
`zero_grad` runs immediately before every `backward` in the loop, gradient
accumulation collapses to plain assignment. -/
def backward {P : Type} (gP : P → Img → Nat → P) (ms : ModelState P)
    (x : Img) (target : Nat) : ModelState P :=
  { ms with grads := some (gP ms.params x target) }

/-- The per-iteration accumulator of the `test` loop: the threaded model
state, the `correct` counter, and the `adv_examples` list. -/
structure LoopState (P : Type) where
  model : ModelState P
  correct : Nat
  adv_examples : List (Nat × Nat × Img)

/-- One iteration of the `for data, target in test_loader` loop of `test`
in `adversarial.ipynb`, with the attack function `fgsm` (left as an
exercise in the notebook), the forward pass `f`, and the input gradient
`gX` produced by `data.grad` after `loss.backward()` supplied as
parameters.  Mirrors the source line by line: forward pass, arg-max,
skip when the initial prediction is wrong, `zero_grad`, `backward`,
collect `data.grad`, perturb, re-classify, then update `correct` and
`adv_examples` (failed attacks are recorded only when `epsilon == 0`;
both branches cap the list at five entries). -/
def testStep {P : Type} (f : P → Img → List ℚ) (gP : P → Img → Nat → P)
    (gX : P → Img → Nat → Img) (fgsm : Img → ℚ → Img → Img) (epsilon : ℚ)
    (st : LoopState P) (pair : Img × Nat) : LoopState P :=
  let data := pair.1
  let target := pair.2
  let output := forward f st.model data
  let init_pred := argmaxIdx output
  if init_pred ≠ target then st
  else
    let ms1 := zero_grad st.model
    let ms2 := backward gP ms1 data target
    let data_grad := gX ms2.params data target
    let perturbed_data := fgsm data epsilon data_grad
    let output2 := forward f ms2 perturbed_data
    let final_pred := argmaxIdx output2
    if final_pred = target then
      { model := ms2
        correct := st.correct + 1
        adv_examples :=
          if epsilon = 0 ∧ st.adv_examples.length < 5 then
            st.adv_examples ++ [(init_pred, final_pred, perturbed_data)]
          else st.adv_examples }
    else
      { model := ms2
        correct := st.correct
        adv_examples :=
          if st.adv_examples.length < 5 then
            st.adv_examples ++ [(init_pred, final_pred, perturbed_data)]
          else st.adv_examples }

/-- The `test` function of `adversarial.ipynb`: folds `testStep` over the
loader starting from `correct = 0`, `adv_examples = []`, then computes
`final_acc = correct / float(len(test_loader))`.  Returns the final loop
state (model state and `adv_examples`) together with the accuracy. -/
def test {P : Type} (f : P → Img → List ℚ) (gP : P → Img → Nat → P)
    (gX : P → Img → Nat → Img) (fgsm : Img → ℚ → Img → Img)
    (ms : ModelState P) (test_loader : List (Img × Nat)) (epsilon : ℚ) :
    LoopState P × ℚ :=
  let final := test_loader.foldl (testStep f gP gX fgsm epsilon) ⟨ms, 0, []⟩
  (final, (final.correct : ℚ) / (test_loader.length : ℚ))

/-- Follows the spec's words (§4.2): the number of pairs whose perturbed
prediction still matches the true label, where a pair whose initial
prediction is wrong is excluded; evaluated against the initial parameters
`p0`. -/
def stillCorrectCount {P : Type} (f : P → Img → List ℚ)
    (gX : P → Img → Nat → Img) (fgsm : Img → ℚ → Img → Img) (p0 : P)
    (epsilon : ℚ) (test_loader : List (Img × Nat)) : Nat :=
  (test_loader.filter (fun pr =>
    argmaxIdx (f p0 pr.1) = pr.2 ∧
      argmaxIdx (f p0 (fgsm pr.1 epsilon (gX p0 pr.1 pr.2))) = pr.2)).length

/-! ### Helper lemmas -/

lemma zipWith_getD (f : ℚ → ℚ → ℚ) :
    ∀ (xs ys : List ℚ) (i : Nat), i < xs.length → i < ys.length →
      (List.zipWith f xs ys).getD i 0 = f (xs.getD i 0) (ys.getD i 0)
  | [], _, i, hx, _ => absurd hx (by simp)
  | _ :: _, [], i, _, hy => absurd hy (by simp)
  | x :: xs, y :: ys, 0, _, _ => rfl
  | x :: xs, y :: ys, i + 1, hx, hy =>
      zipWith_getD f xs ys i (Nat.lt_of_succ_lt_succ hx)
        (Nat.lt_of_succ_lt_succ hy)

lemma clamp01_of_mem (x : ℚ) (h0 : 0 ≤ x) (h1 : x ≤ 1) : clamp01 x = x := by
  unfold clamp01
  rw [max_eq_left h0, min_eq_left h1]

/-- The scalar core of the monotonicity claim: writing
`p e = clamp01 (x + e * sign g)` for a pixel `x ∈ [0,1]`, the perturbed
pixel always sits on the side of `x` chosen by `sign g`, and its distance
from `x` is monotone in `epsilon`. -/
lemma clamp_step_mono (x g e1 e2 : ℚ) (hx0 : 0 ≤ x) (hx1 : x ≤ 1)
    (he0 : 0 ≤ e1) (he12 : e1 ≤ e2) :
    0 ≤ (clamp01 (x + e1 * sign g) - x) * sign g ∧
      0 ≤ (clamp01 (x + e2 * sign g) - x) * sign g ∧
      |clamp01 (x + e1 * sign g) - x| ≤ |clamp01 (x + e2 * sign g) - x| := by
  rcases lt_trichotomy g 0 with hg | hg | hg
  · have hs : sign g = -1 := by
      unfold sign
      rw [if_neg (by linarith), if_pos hg]
    rw [hs]
    have key : ∀ e : ℚ, 0 ≤ e → clamp01 (x + e * (-1)) = max (x - e) 0 := by
      intro e he
      unfold clamp01
      have : x + e * (-1) = x - e := by ring
      rw [this]
      exact min_eq_left (le_trans (max_le (by linarith) (by linarith)) le_rfl)
    rw [key e1 he0, key e2 (le_trans he0 he12)]
    have hb1 : max (x - e1) 0 ≤ x := max_le (by linarith) hx0
    have hb2 : max (x - e2) 0 ≤ x := max_le (by linarith) hx0
    have hmono : max (x - e2) 0 ≤ max (x - e1) 0 :=
      max_le_max (by linarith) le_rfl
    refine ⟨by nlinarith, by nlinarith, ?_⟩
    rw [abs_of_nonpos (by linarith), abs_of_nonpos (by linarith)]
    linarith
  · have hs : sign g = 0 := by
      unfold sign
      rw [if_neg (by linarith), if_neg (by linarith)]
    rw [hs]
    have : ∀ e : ℚ, clamp01 (x + e * 0) = x := by
      intro e
      rw [mul_zero, add_zero, clamp01_of_mem x hx0 hx1]
    rw [this e1, this e2]
    simp
  · have hs : sign g = 1 := by
      unfold sign
      rw [if_pos hg]
    rw [hs]
    have key : ∀ e : ℚ, 0 ≤ e → clamp01 (x + e * 1) = min (x + e) 1 := by
      intro e he
      unfold clamp01
      have : x + e * 1 = x + e := by ring
      rw [this, max_eq_left (by linarith)]
    rw [key e1 he0, key e2 (le_trans he0 he12)]
    have hb1 : x ≤ min (x + e1) 1 := le_min (by linarith) hx1
    have hb2 : x ≤ min (x + e2) 1 := le_min (by linarith) hx1
    have hmono : min (x + e1) 1 ≤ min (x + e2) 1 :=
      min_le_min (by linarith) le_rfl
    refine ⟨by nlinarith, by nlinarith, ?_⟩
    rw [abs_of_nonneg (by linarith), abs_of_nonneg (by linarith)]
    linarith

/-! ### Claims about the perturbation function -/

/-- C1. The spec-modelled perturbation returns
`sample + epsilon * elementwise_sign(gradient)` clamped element-wise to
`[0,1]`; in particular the one-pixel sample `1/2` with gradient `-1/5` and
`epsilon = 1/10` maps to `2/5`. -/
theorem fgsm_spec_formula :
    (∀ (image data_grad : Img) (epsilon : ℚ) (i : Nat),
        i < image.length → i < data_grad.length →
        (fgsm_attack_spec image epsilon data_grad).getD i 0 =
          clamp01 (image.getD i 0 + epsilon * sign (data_grad.getD i 0))) ∧
      fgsm_attack_spec [1/2] (1/10) [-1/5] = [2/5] := by
  constructor
  · intro image data_grad epsilon i hx hg
    exact zipWith_getD _ image data_grad i hx hg
  · unfold fgsm_attack_spec sign clamp01
    norm_num

/-- Witness for C1 at the spec's one-pixel example. -/
theorem fgsm_spec_formula_witness :
    (fgsm_attack_spec [1/2] (1/10) [-1/5]).getD 0 0 =
      clamp01 (([(1:ℚ)/2] : Img).getD 0 0 +
        (1/10) * sign (([-(1:ℚ)/5] : Img).getD 0 0)) :=
  fgsm_spec_formula.1 [1/2] [-1/5] (1/10) 0 (by simp) (by simp)

/-- C5. With `epsilon = 0` the spec-modelled perturbation is exactly the
element-wise clamp of the sample, for every gradient of matching shape. -/
theorem fgsm_spec_epsilon_zero :
    ∀ (image data_grad : Img), image.length = data_grad.length →
      fgsm_attack_spec image 0 data_grad = image.map clamp01 := by
  intro image
  induction image with
  | nil => intro g _; rfl
  | cons x xs ih =>
      intro g hlen
      cases g with
      | nil => simp at hlen
      | cons y ys =>
          simp only [fgsm_attack_spec, List.zipWith, List.map]
          rw [zero_mul, add_zero]
          have := ih ys (by simpa using hlen)
          simpa [fgsm_attack_spec] using this

/-- Witness for C5: a two-pixel sample, one pixel out of range. -/
theorem fgsm_spec_epsilon_zero_witness :
    ([(3:ℚ)/2, 1/2] : Img).length = ([(1:ℚ), -1] : Img).length ∧
      fgsm_attack_spec [3/2, 1/2] 0 [1, -1] =
        ([(3:ℚ)/2, 1/2] : Img).map clamp01 :=
  ⟨rfl, fgsm_spec_epsilon_zero [3/2, 1/2] [1, -1] rfl⟩

/-- C7. Every element of `elementwise_sign` applied to a gradient tensor,
as used inside the spec-modelled perturbation, is `-1`, `0` or `1`. -/
theorem sign_mem_range :
    ∀ (data_grad : Img) (v : ℚ), v ∈ data_grad.map sign →
      v = -1 ∨ v = 0 ∨ v = 1 := by
  intro data_grad v hv
  rcases List.mem_map.mp hv with ⟨g, _, rfl⟩
  unfold sign
  split_ifs with h1 h2
  · right; right; rfl
  · left; rfl
  · right; left; rfl

/-- Witness for C7 on the gradient tensor of the spec's example. -/
theorem sign_mem_range_witness :
    sign (-(1:ℚ)/5) = -1 ∨ sign (-(1:ℚ)/5) = 0 ∨ sign (-(1:ℚ)/5) = 1 :=
  sign_mem_range [-(1:ℚ)/5] (sign (-(1:ℚ)/5)) (by simp)

/-- C9. As shipped in the notebook, `fgsm_attack` is the identity on its
first argument for every image, epsilon and gradient: the exercise stub
applies no perturbation and no clamping. -/
theorem fgsm_attack_stub_identity :
    ∀ (image : Img) (epsilon : ℚ) (data_grad : Img),
      fgsm_attack image epsilon data_grad = image := by
  intro image epsilon data_grad
  rfl

/-- C6. For `0 ≤ e1 ≤ e2` and a valid pixel, the spec-modelled perturbed
pixel moves away from the original in the direction of the gradient's
sign, and the larger epsilon moves it at least as far (clamping capping
the excursion). -/
theorem fgsm_spec_monotone :
    ∀ (image data_grad : Img) (e1 e2 : ℚ), 0 ≤ e1 → e1 ≤ e2 →
      ∀ i : Nat, i < image.length → i < data_grad.length →
        0 ≤ image.getD i 0 → image.getD i 0 ≤ 1 →
        0 ≤ ((fgsm_attack_spec image e1 data_grad).getD i 0 -
              image.getD i 0) * sign (data_grad.getD i 0) ∧
          0 ≤ ((fgsm_attack_spec image e2 data_grad).getD i 0 -
              image.getD i 0) * sign (data_grad.getD i 0) ∧
          |(fgsm_attack_spec image e1 data_grad).getD i 0 -
              image.getD i 0| ≤
            |(fgsm_attack_spec image e2 data_grad).getD i 0 -
              image.getD i 0| := by
  intro image data_grad e1 e2 he0 he12 i hx hg hp0 hp1
  unfold fgsm_attack_spec
  rw [zipWith_getD _ image data_grad i hx hg,
    zipWith_getD _ image data_grad i hx hg]
  exact clamp_step_mono (image.getD i 0) (data_grad.getD i 0) e1 e2 hp0 hp1
    he0 he12

/-- Witness for C6: pixel `1/2`, gradient `-1/5`, epsilons `1/10 ≤ 2`;
the second perturbation is clamped at `0`. -/
theorem fgsm_spec_monotone_witness :
    0 ≤ ((fgsm_attack_spec [1/2] (1/10) [-1/5]).getD 0 0 -
          ([(1:ℚ)/2] : Img).getD 0 0) * sign (([-(1:ℚ)/5] : Img).getD 0 0) ∧
      0 ≤ ((fgsm_attack_spec [1/2] 2 [-1/5]).getD 0 0 -
          ([(1:ℚ)/2] : Img).getD 0 0) * sign (([-(1:ℚ)/5] : Img).getD 0 0) ∧
      |(fgsm_attack_spec [1/2] (1/10) [-1/5]).getD 0 0 -
          ([(1:ℚ)/2] : Img).getD 0 0| ≤
        |(fgsm_attack_spec [1/2] 2 [-1/5]).getD 0 0 -
          ([(1:ℚ)/2] : Img).getD 0 0| :=
  fgsm_spec_monotone [1/2] [-1/5] (1/10) 2 (by norm_num) (by norm_num) 0
    (by simp) (by simp) (by norm_num) (by norm_num)

/-! ### Helper lemmas about the evaluation loop -/

lemma testStep_params {P : Type} (f : P → Img → List ℚ)
    (gP : P → Img → Nat → P) (gX : P → Img → Nat → Img)
    (fgsm : Img → ℚ → Img → Img) (epsilon : ℚ) (st : LoopState P)
    (pr : Img × Nat) :
    (testStep f gP gX fgsm epsilon st pr).model.params = st.model.params := by
  simp only [testStep, forward, zero_grad, backward]
  split_ifs <;> rfl

lemma foldl_params {P : Type} (f : P → Img → List ℚ)
    (gP : P → Img → Nat → P) (gX : P → Img → Nat → Img)
    (fgsm : Img → ℚ → Img → Img) (epsilon : ℚ) :
    ∀ (loader : List (Img × Nat)) (st : LoopState P),
      (loader.foldl (testStep f gP gX fgsm epsilon) st).model.params =
        st.model.params := by
  intro loader
  induction loader with
  | nil => intro st; rfl
  | cons pr rest ih =>
      intro st
      rw [List.foldl_cons, ih, testStep_params]

lemma testStep_correct {P : Type} (f : P → Img → List ℚ)
    (gP : P → Img → Nat → P) (gX : P → Img → Nat → Img)
    (fgsm : Img → ℚ → Img → Img) (epsilon : ℚ) (st : LoopState P)
    (pr : Img × Nat) :
    (testStep f gP gX fgsm epsilon st pr).correct =
      if argmaxIdx (f st.model.params pr.1) = pr.2 ∧
          argmaxIdx (f st.model.params
            (fgsm pr.1 epsilon (gX st.model.params pr.1 pr.2))) = pr.2 then
        st.correct + 1
      else st.correct := by
  simp only [testStep, forward, zero_grad, backward]
  split_ifs <;> first | rfl | tauto

lemma testStep_adv_of_ge {P : Type} (f : P → Img → List ℚ)
    (gP : P → Img → Nat → P) (gX : P → Img → Nat → Img)
    (fgsm : Img → ℚ → Img → Img) (epsilon : ℚ) (st : LoopState P)
    (pr : Img × Nat) (h : 5 ≤ st.adv_examples.length) :
    (testStep f gP gX fgsm epsilon st pr).adv_examples = st.adv_examples := by
  simp only [testStep, forward, zero_grad, backward]
  split_ifs <;> first | rfl | omega

lemma testStep_adv_length {P : Type} (f : P → Img → List ℚ)
    (gP : P → Img → Nat → P) (gX : P → Img → Nat → Img)
    (fgsm : Img → ℚ → Img → Img) (epsilon : ℚ) (st : LoopState P)
    (pr : Img × Nat) (h : st.adv_examples.length ≤ 5) :
    (testStep f gP gX fgsm epsilon st pr).adv_examples.length ≤ 5 := by
  simp only [testStep, forward, zero_grad, backward]
  split_ifs <;>
    first
      | exact h
      | (simp only [List.length_append, List.length_singleton]
         have hlt : st.adv_examples.length < 5 := by tauto
         omega)

lemma foldl_adv_length {P : Type} (f : P → Img → List ℚ)
    (gP : P → Img → Nat → P) (gX : P → Img → Nat → Img)
    (fgsm : Img → ℚ → Img → Img) (epsilon : ℚ) :
    ∀ (loader : List (Img × Nat)) (st : LoopState P),
      st.adv_examples.length ≤ 5 →
      (loader.foldl (testStep f gP gX fgsm epsilon) st).adv_examples.length
        ≤ 5 := by
  intro loader
  induction loader with
  | nil => intro st h; exact h
  | cons pr rest ih =>
      intro st h
      rw [List.foldl_cons]
      exact ih _ (testStep_adv_length f gP gX fgsm epsilon st pr h)

lemma testStep_adv_sub {P : Type} (f : P → Img → List ℚ)
    (gP : P → Img → Nat → P) (gX : P → Img → Nat → Img)
    (fgsm : Img → ℚ → Img → Img) (epsilon : ℚ) (hε : epsilon ≠ 0)
    (st : LoopState P) (pr : Img × Nat) :
    ∀ t ∈ (testStep f gP gX fgsm epsilon st pr).adv_examples,
      t ∈ st.adv_examples ∨ (t.1 = pr.2 ∧ t.2.1 ≠ pr.2) := by
  intro t
  simp only [testStep, forward, zero_grad, backward]
  split_ifs with h1 h2 h3 h4
  · exact fun ht => Or.inl ht
  · exact absurd h3.1 hε
  · exact fun ht => Or.inl ht
  · intro ht
    rcases List.mem_append.mp ht with hmem | hsing
    · exact Or.inl hmem
    · rcases List.mem_singleton.mp hsing with rfl
      exact Or.inr ⟨not_not.mp h1, h2⟩
  · exact fun ht => Or.inl ht

lemma foldl_adv_sub {P : Type} (f : P → Img → List ℚ)
    (gP : P → Img → Nat → P) (gX : P → Img → Nat → Img)
    (fgsm : Img → ℚ → Img → Img) (epsilon : ℚ) (hε : epsilon ≠ 0) :
    ∀ (loader : List (Img × Nat)) (st : LoopState P),
      ∀ t ∈ (loader.foldl (testStep f gP gX fgsm epsilon) st).adv_examples,
        t ∈ st.adv_examples ∨
          ∃ pr, pr ∈ loader ∧ t.1 = pr.2 ∧ t.2.1 ≠ pr.2 := by
  intro loader
  induction loader with
  | nil => intro st t ht; exact Or.inl ht
  | cons pr rest ih =>
      intro st t ht
      rw [List.foldl_cons] at ht
      rcases ih _ t ht with hmem | ⟨q, hq, hq1, hq2⟩
      · rcases testStep_adv_sub f gP gX fgsm epsilon hε st pr t hmem with
          hmem2 | ⟨h1, h2⟩
        · exact Or.inl hmem2
        · exact Or.inr ⟨pr, List.mem_cons_self pr rest, h1, h2⟩
      · exact Or.inr ⟨q, List.mem_cons_of_mem pr hq, hq1, hq2⟩

lemma foldl_correct {P : Type} (f : P → Img → List ℚ)
    (gP : P → Img → Nat → P) (gX : P → Img → Nat → Img)
    (fgsm : Img → ℚ → Img → Img) (epsilon : ℚ) (p0 : P) :
    ∀ (loader : List (Img × Nat)) (st : LoopState P),
      st.model.params = p0 →
      (loader.foldl (testStep f gP gX fgsm epsilon) st).correct =
        st.correct + stillCorrectCount f gX fgsm p0 epsilon loader := by
  intro loader
  induction loader with
  | nil => intro st _; simp [stillCorrectCount]
  | cons pr rest ih =>
      intro st hst
      rw [List.foldl_cons,
        ih _ (by rw [testStep_params, hst])]
      have hc := testStep_correct f gP gX fgsm epsilon st pr
      rw [hst] at hc
      rw [hc]
      by_cases hp : argmaxIdx (f p0 pr.1) = pr.2 ∧
          argmaxIdx (f p0 (fgsm pr.1 epsilon (gX p0 pr.1 pr.2))) = pr.2
      · rw [if_pos hp]
        simp only [stillCorrectCount, List.filter_cons]
        rw [if_pos (by simpa using hp)]
        simp [Nat.add_comm, Nat.add_assoc, Nat.add_left_comm]
      · rw [if_neg hp]
        simp only [stillCorrectCount, List.filter_cons]
        rw [if_neg (by simpa using hp)]

/-! ### Claims about the evaluation loop -/

/-- C2. The accuracy returned by `test` is the number of pairs whose
perturbed prediction still matches the true label (pairs with a wrong
initial prediction contribute nothing) divided by the total number of
pairs in the loader. -/
theorem test_accuracy_eq :
    ∀ (P : Type) (f : P → Img → List ℚ) (gP : P → Img → Nat → P)
      (gX : P → Img → Nat → Img) (fgsm : Img → ℚ → Img → Img)
      (ms : ModelState P) (loader : List (Img × Nat)) (epsilon : ℚ),
      0 < loader.length →
      (test f gP gX fgsm ms loader epsilon).2 =
        (stillCorrectCount f gX fgsm ms.params epsilon loader : ℚ) /
          (loader.length : ℚ) := by
  intro P f gP gX fgsm ms loader epsilon _
  simp only [test]
  rw [foldl_correct f gP gX fgsm epsilon ms.params loader ⟨ms, 0, []⟩ rfl]
  simp

/-- Witness for C2: a two-pair loader in which the first pair survives a
failed attack and the second pair is initially misclassified; the
accuracy is `1 / 2`. -/
theorem test_accuracy_eq_witness :
    0 < ([(([0, 1] : Img), 1), (([1, 0] : Img), 1)] :
        List (Img × Nat)).length ∧
      (test (fun (_ : Unit) (x : Img) => x) (fun _ _ _ => ())
          (fun _ x _ => x) fgsm_attack ⟨(), none⟩
          [([0, 1], 1), ([1, 0], 1)] 1).2 =
        (stillCorrectCount (fun (_ : Unit) (x : Img) => x) (fun _ x _ => x)
            fgsm_attack () 1 [([0, 1], 1), ([1, 0], 1)] : ℚ) /
          (([(([0, 1] : Img), 1), (([1, 0] : Img), 1)] :
              List (Img × Nat)).length : ℚ) :=
  ⟨by decide,
    test_accuracy_eq Unit (fun _ x => x) (fun _ _ _ => ()) (fun _ x _ => x)
      fgsm_attack ⟨(), none⟩ [([0, 1], 1), ([1, 0], 1)] 1 (by decide)⟩

/-- C4. A pair whose initial prediction mismatches the label is skipped
entirely: the loop iteration leaves the whole loop state — model state,
`correct` counter and `adv_examples` — exactly as it was. -/
theorem test_skips_wrong_initial :
    ∀ (P : Type) (f : P → Img → List ℚ) (gP : P → Img → Nat → P)
      (gX : P → Img → Nat → Img) (fgsm : Img → ℚ → Img → Img)
      (epsilon : ℚ) (st : LoopState P) (pr : Img × Nat),
      argmaxIdx (forward f st.model pr.1) ≠ pr.2 →
      testStep f gP gX fgsm epsilon st pr = st := by
  intro P f gP gX fgsm epsilon st pr h
  simp only [testStep]
  rw [if_pos h]

/-- Witness for C4: the identity-scores model predicts `0` on `[1, 0]`,
mismatching the label `1`, so the iteration is a no-op. -/
theorem test_skips_wrong_initial_witness :
    argmaxIdx (forward (fun (_ : Unit) (x : Img) => x)
        (ModelState.mk () none) [1, 0]) ≠ 1 ∧
      testStep (fun (_ : Unit) (x : Img) => x) (fun _ _ _ => ())
          (fun _ x _ => x) fgsm_attack 1
          ⟨⟨(), none⟩, 0, []⟩ ([1, 0], 1) =
        ⟨⟨(), none⟩, 0, []⟩ :=
  ⟨by decide,
    test_skips_wrong_initial Unit (fun _ x => x) (fun _ _ _ => ())
      (fun _ x _ => x) fgsm_attack 1 ⟨⟨(), none⟩, 0, []⟩ ([1, 0], 1)
      (by decide)⟩

/-- C8. The model parameters are immutable across the whole evaluation:
`test` returns them exactly as they were, for every epsilon and loader
(only the gradient buffer is touched; no training step occurs). -/
theorem test_params_frozen :
    ∀ (P : Type) (f : P → Img → List ℚ) (gP : P → Img → Nat → P)
      (gX : P → Img → Nat → Img) (fgsm : Img → ℚ → Img → Img)
      (ms : ModelState P) (loader : List (Img × Nat)) (epsilon : ℚ),
      (test f gP gX fgsm ms loader epsilon).1.model.params = ms.params := by
  intro P f gP gX fgsm ms loader epsilon
  simp only [test]
  exact foldl_params f gP gX fgsm epsilon loader ⟨ms, 0, []⟩

/-- C10. For a nonzero epsilon, every triple stored in `adv_examples`
comes from a loader pair whose perturbed prediction differs from the true
label: the stored initial prediction equals the pair's label and the
stored final prediction does not. -/
theorem adv_examples_only_successful :
    ∀ (P : Type) (f : P → Img → List ℚ) (gP : P → Img → Nat → P)
      (gX : P → Img → Nat → Img) (fgsm : Img → ℚ → Img → Img)
      (ms : ModelState P) (loader : List (Img × Nat)) (epsilon : ℚ),
      epsilon ≠ 0 →
      ∀ t ∈ (test f gP gX fgsm ms loader epsilon).1.adv_examples,
        ∃ pr, pr ∈ loader ∧ t.1 = pr.2 ∧ t.2.1 ≠ pr.2 := by
  intro P f gP gX fgsm ms loader epsilon hε t ht
  simp only [test] at ht
  rcases foldl_adv_sub f gP gX fgsm epsilon hε loader ⟨ms, 0, []⟩ t ht with
    hmem | hfound
  · exact absurd hmem (List.not_mem_nil t)
  · exact hfound

/-- Witness for C10: a constant attack flips the prediction from `1` to
`0`, so the stored triple `(1, 0, [1, 0])` records a successful attack. -/
theorem adv_examples_only_successful_witness :
    (1 : ℚ) ≠ 0 ∧
      ∃ pr, pr ∈ ([(([0, 1] : Img), 1)] : List (Img × Nat)) ∧
        ((1, 0, ([1, 0] : Img)) : Nat × Nat × Img).1 = pr.2 ∧
        ((1, 0, ([1, 0] : Img)) : Nat × Nat × Img).2.1 ≠ pr.2 :=
  ⟨by norm_num,
    adv_examples_only_successful Unit (fun _ x => x) (fun _ _ _ => ())
      (fun _ x _ => x) (fun _ _ _ => [1, 0]) ⟨(), none⟩ [([0, 1], 1)] 1
      (by norm_num) (1, 0, [1, 0]) (by decide)⟩

/-- C3 counterexample: with `epsilon = 1 ≠ 0`, a pair that is attacked
(initial prediction correct) whose attack fails (the stub leaves the
prediction at the label) yields no triple even though fewer than five are
held — refuting the claim that triples are collected regardless of
whether the attack succeeded or failed. -/
theorem adv_examples_cap_counterexample :
    (1 : ℚ) ≠ 0 ∧
      argmaxIdx ((fun (_ : Unit) (x : Img) => x) () [0, 1]) = 1 ∧
      argmaxIdx ((fun (_ : Unit) (x : Img) => x) ()
        (fgsm_attack [0, 1] 1 [0, 1])) = 1 ∧
      (test (fun (_ : Unit) (x : Img) => x) (fun _ _ _ => ())
          (fun _ x _ => x) fgsm_attack ⟨(), none⟩
          [([0, 1], 1)] 1).1.adv_examples = [] := by
  refine ⟨by norm_num, by decide, by decide, by decide⟩

/-- C3 amended. The loop caps `adv_examples` at five entries and stops
collecting once five are held; an iteration appends a triple exactly for
a successful attack while fewer than five are held, and for a failed
attack only when `epsilon = 0`. -/
theorem adv_examples_cap :
    ∀ (P : Type) (f : P → Img → List ℚ) (gP : P → Img → Nat → P)
      (gX : P → Img → Nat → Img) (fgsm : Img → ℚ → Img → Img)
      (epsilon : ℚ),
      (∀ (ms : ModelState P) (loader : List (Img × Nat)),
        (test f gP gX fgsm ms loader epsilon).1.adv_examples.length ≤ 5) ∧
      (∀ (st : LoopState P) (pr : Img × Nat),
        5 ≤ st.adv_examples.length →
        (testStep f gP gX fgsm epsilon st pr).adv_examples =
          st.adv_examples) ∧
      (∀ (st : LoopState P) (pr : Img × Nat),
        epsilon ≠ 0 →
        argmaxIdx (f st.model.params
          (fgsm pr.1 epsilon (gX st.model.params pr.1 pr.2))) = pr.2 →
        (testStep f gP gX fgsm epsilon st pr).adv_examples =
          st.adv_examples) ∧
      (∀ (st : LoopState P) (pr : Img × Nat),
        argmaxIdx (f st.model.params pr.1) = pr.2 →
        argmaxIdx (f st.model.params
          (fgsm pr.1 epsilon (gX st.model.params pr.1 pr.2))) ≠ pr.2 →
        st.adv_examples.length < 5 →
        (testStep f gP gX fgsm epsilon st pr).adv_examples =
          st.adv_examples ++
            [(argmaxIdx (f st.model.params pr.1),
              argmaxIdx (f st.model.params
                (fgsm pr.1 epsilon (gX st.model.params pr.1 pr.2))),
              fgsm pr.1 epsilon (gX st.model.params pr.1 pr.2))]) := by
  intro P f gP gX fgsm epsilon
  refine ⟨?_, ?_, ?_, ?_⟩
  · intro ms loader
    simp only [test]
    exact foldl_adv_length f gP gX fgsm epsilon loader ⟨ms, 0, []⟩
      (by simp)
  · intro st pr h
    exact testStep_adv_of_ge f gP gX fgsm epsilon st pr h
  · intro st pr hε hfail
    simp only [testStep, forward, zero_grad, backward]
    split_ifs <;> first | rfl | tauto
  · intro st pr hinit hflip hlen
    simp only [testStep, forward, zero_grad, backward]
    split_ifs <;> first | rfl | tauto

/-- Witness for C3 (amended), third conjunct: with `epsilon = 1` and the
stub attack, a failed attack leaves `adv_examples` unchanged. -/
theorem adv_examples_cap_witness :
    (testStep (fun (_ : Unit) (x : Img) => x) (fun _ _ _ => ())
        (fun _ x _ => x) fgsm_attack 1
        ⟨⟨(), none⟩, 0, []⟩ ([0, 1], 1)).adv_examples =
      (⟨⟨(), none⟩, 0, []⟩ : LoopState Unit).adv_examples :=
  (adv_examples_cap Unit (fun _ x => x) (fun _ _ _ => ()) (fun _ x _ => x)
      fgsm_attack 1).2.2.1 ⟨⟨(), none⟩, 0, []⟩ ([0, 1], 1) (by norm_num)
    (by decide)

end Adversarial
